import Mathlib

/-!
Verification of the `ergo_sync` concurrency convenience layer.

The development shallowly embeds the crate's constructs:

* `FinishHandle::finish` on `std::thread::JoinHandle<T>` (src/src/lib.rs,
  lines 320-325) is embedded over a terminated thread's outcome
  (`ThreadResult`): `join` yields `Ok value` or `Err payload`, and `expect`
  turns the `Err` into a panic of the calling thread carrying the fixed
  expect message. A panic of the calling thread is modelled as
  `Except.error msg`.
* `sleep_ms` (src/src/lib.rs, lines 342-345) is embedded as an
  effect-trace producer so that a pass-through claim is a statement about
  observable effects.
* The `ch!` channel-operation macro and the select loop live in the `ch`
  module (declared at src/src/lib.rs line 291) and in the re-exported
  select primitive, whose sources are not present; those operations are
  modelled from the spec, as marked on each definition.
-/

namespace ErgoSync

/-- Outcome of a spawned OS thread that has terminated: either its body ran
to completion producing a value, or it panicked with some payload. -/
inductive ThreadResult (T : Type) where
  | completed (value : T)
  | panicked (payload : String)
deriving DecidableEq

/-- Embedding of `JoinHandle::join`: blocks until the thread terminates and
returns `Ok(value)` on normal completion, `Err(payload)` when the thread
panicked (the payload is the type-erased panic value). -/
def join {T : Type} : ThreadResult T → Except String T
  | .completed v => Except.ok v
  | .panicked p => Except.error p

/-- Embedding of `Result::expect(msg)`: on `Ok v` yields `v`; on `Err` it
panics in the calling thread with the fixed message `msg` (the original
error value is type-erased `Box<dyn Any>` and contributes no content to
the new panic). A panic is `Except.error`. -/
def expect {T : Type} (msg : String) : Except String T → Except String T
  | Except.ok v => Except.ok v
  | Except.error _ => Except.error msg

/-- Embedding of `FinishHandle::finish` (src/src/lib.rs lines 320-325):
`self.join().expect("finish failed to join, thread is poisoned")`. -/
def finish {T : Type} (h : ThreadResult T) : Except String T :=
  expect "finish failed to join, thread is poisoned" (join h)

/-- A completion handle with an explicit consumed/guard flag. Rust enforces
single consumption through move semantics (`finish(self)` takes the handle
by value); the embedding makes the transfer explicit with the `spent`
flag, exactly the encoding the data model prescribes for languages
without move semantics. -/
structure Handle (T : Type) where
  result : ThreadResult T
  spent : Bool
deriving DecidableEq

/-- Consuming finish on a guarded handle: a spent handle cannot be
finished (`none`); an unspent one yields the finish outcome together
with the now-spent handle. -/
def Handle.finishOnce {T : Type} (h : Handle T) :
    Option (Except String T × Handle T) :=
  if h.spent then none
  else some (finish h.result, { h with spent := true })

/-- Nanosecond-precision duration, mirroring `std::time::Duration`
(seconds plus sub-second nanoseconds). -/
structure Duration where
  secs : Nat
  nanos : Nat
deriving DecidableEq

/-- Embedding of `Duration::from_millis`: `millis / 1000` whole seconds and
`(millis % 1000) * 1_000_000` nanoseconds. -/
def Duration.fromMillis (millis : Nat) : Duration :=
  ⟨millis / 1000, (millis % 1000) * 1000000⟩

/-- Observable effect of the sleep helpers: the calling thread parks for a
duration. -/
inductive Effect where
  | sleepFor (d : Duration)
deriving DecidableEq

/-- Embedding of `std::thread::sleep`: produces exactly one park effect. -/
def sleep (d : Duration) : List Effect :=
  [Effect.sleepFor d]

/-- Embedding of `sleep_ms` (src/src/lib.rs lines 342-345):
`sleep(Duration::from_millis(millis))`. -/
def sleep_ms (millis : Nat) : List Effect :=
  sleep (Duration.fromMillis millis)

/-- Spec-side reading of the pass-through claim: `sleep_ms(millis)` behaves
identically to `sleep(Duration::from_millis(millis))` and has no other
effect; written from the spec's words for comparison with `sleep_ms`. -/
def sleepMsSpec (millis : Nat) : List Effect :=
  sleep (Duration.fromMillis millis)

/-- Reference-counted channel state: live `Sender` clone count, live
`Receiver` clone count, and the FIFO buffer of sent-but-unread values.
A channel is closed for receiving once `senders = 0`. -/
structure Channel (T : Type) where
  senders : Nat
  receivers : Nat
  buffer : List T
deriving DecidableEq

/-- Descriptive fatal message of the broken-pipe send. -/
def sendBrokenPipeMsg : String :=
  "broken pipe: send on a channel whose receivers were all dropped"

/-- Descriptive fatal message of the broken-pipe receive. -/
def recvBrokenPipeMsg : String :=
  "broken pipe: receive on a channel whose senders were all dropped"

/-- Modelled from the spec: the Send form of the `ch!` macro (its source,
src/ch.rs behind `pub mod ch;`, is not present). If every Receiver for the
channel has been dropped, the operation fails fatally with the descriptive
broken-pipe-send message; otherwise it delivers the value (appended to the
FIFO buffer) and returns no value, the new state apart. -/
def chSend {T : Type} (c : Channel T) (v : T) : Except String (Channel T) :=
  if c.receivers = 0 then Except.error sendBrokenPipeMsg
  else Except.ok { c with buffer := c.buffer ++ [v] }

/-- Possible outcomes of the Receive form on a channel state: a value is
taken from the buffer, the calling thread panics because the channel is
closed and drained, or the call keeps blocking for a sender. -/
inductive RecvOutcome (T : Type) where
  | received (v : T) (rest : Channel T)
  | fatal (msg : String)
  | blocks
deriving DecidableEq

/-- Modelled from the spec: the Receive form of the `ch!` macro (source not
present). It blocks until a value is available or the channel is closed
(all Senders dropped with no buffered value remaining); on a value it
returns it, on closure with no value it fails fatally with the descriptive
broken-pipe-receive message. -/
def chRecv {T : Type} (c : Channel T) : RecvOutcome T :=
  match c.buffer with
  | v :: rest => RecvOutcome.received v { c with buffer := rest }
  | [] =>
    if c.senders = 0 then RecvOutcome.fatal recvBrokenPipeMsg
    else RecvOutcome.blocks

/-- Events a channel's endpoints can undergo while some thread blocks in
`WaitClose`: a value sent, a value taken by another receiver, and
clone/drop of either endpoint kind. -/
inductive ChEvent (T : Type) where
  | send (v : T)
  | recvOne
  | cloneSender
  | dropSender
  | cloneReceiver
  | dropReceiver
deriving DecidableEq

/-- One channel-state transition per event. -/
def chStep {T : Type} (c : Channel T) : ChEvent T → Channel T
  | .send v => { c with buffer := c.buffer ++ [v] }
  | .recvOne => { c with buffer := c.buffer.tail }
  | .cloneSender => { c with senders := c.senders + 1 }
  | .dropSender => { c with senders := c.senders - 1 }
  | .cloneReceiver => { c with receivers := c.receivers + 1 }
  | .dropReceiver => { c with receivers := c.receivers - 1 }

/-- Channel state after the first `k` events. -/
def chStateAt {T : Type} (c : Channel T) (evs : List (ChEvent T))
    (k : Nat) : Channel T :=
  (evs.take k).foldl chStep c

/-- Modelled from the spec: the WaitClose form of the `ch!` macro (source
not present). Blocking on the channel while events unfold, it returns at
the first moment every Sender clone has been dropped, discarding values
received in the interim; `some k` means it returned after observing `k`
events, `none` that it still blocks after all of `evs`. -/
def waitClose {T : Type} (c : Channel T) : List (ChEvent T) → Option Nat
  | [] => if c.senders = 0 then some 0 else none
  | e :: rest =>
    if c.senders = 0 then some 0
    else (waitClose (chStep c e) rest).map (· + 1)

/-- A channel endpoint as observed by the select loop: whether all its
senders are dropped (`closed`) and its buffered-but-undispatched values. -/
structure SelChan (T : Type) where
  closed : Bool
  buffer : List T
deriving DecidableEq

/-- First ready channel: the index and head value of the first declared
channel with a nonempty buffer, together with the channel list after
removing that value; `none` when no channel is ready. -/
def popReady {T : Type} : List (SelChan T) →
    Option (Nat × T × List (SelChan T))
  | [] => none
  | c :: rest =>
    match c.buffer with
    | v :: b => some (0, v, { c with buffer := b } :: rest)
    | [] => (popReady rest).map fun p => (p.1 + 1, p.2.1, c :: p.2.2)

/-- Total number of buffered values across the declared channels. -/
def totalBuf {T : Type} (cs : List (SelChan T)) : Nat :=
  (cs.map fun c => c.buffer.length).sum

/-- All declared channels are closed (every sender dropped). -/
def allClosed {T : Type} (cs : List (SelChan T)) : Bool :=
  cs.all fun c => c.closed

/-- Result of running the select loop: it terminated after dispatching the
listed (channel index, value) pairs in order, or it is still blocked
waiting on an open channel after dispatching them. -/
inductive SelResult (T : Type) where
  | terminated (dispatched : List (Nat × T))
  | stillBlocked (dispatched : List (Nat × T))
deriving DecidableEq

/-- Record one dispatched item in front of a loop result. -/
def SelResult.push {T : Type} (p : Nat × T) : SelResult T → SelResult T
  | .terminated d => .terminated (p :: d)
  | .stillBlocked d => .stillBlocked (p :: d)

/-- Fuelled select-loop iteration: each iteration dispatches one ready item
to its paired handler; an iteration observing zero ready channels
terminates when every channel is closed and otherwise blocks for more
input. -/
def selectRunFuel {T : Type} : Nat → List (SelChan T) → SelResult T
  | 0, _ => SelResult.stillBlocked []
  | fuel + 1, cs =>
    match popReady cs with
    | some (i, v, cs') => (selectRunFuel fuel cs').push (i, v)
    | none =>
      if allClosed cs then SelResult.terminated [] else SelResult.stillBlocked []

/-- Modelled from the spec: the Multi-Channel Select Loop (re-exported from
the external select primitive, source not present). It repeatedly polls the
declared channels, dispatching each ready item to its paired handler, and
terminates when all channels are closed and drained; a blocked loop is one
still waiting on an open channel. The fuel bound suffices because every
iteration that does not terminate consumes one buffered value. -/
def selectRun {T : Type} (cs : List (SelChan T)) : SelResult T :=
  selectRunFuel (totalBuf cs + 1) cs

/-- The dispatch list the loop owes its handlers: every buffered item of
every declared channel, tagged with its channel index, each exactly once
(channel 0's buffer in order, then channel 1's, ...). -/
def expectedDispatch {T : Type} : List (SelChan T) → List (Nat × T)
  | [] => []
  | c :: rest =>
    (c.buffer.map fun v => (0, v)) ++
      (expectedDispatch rest).map fun p => (p.1 + 1, p.2)

/-- Outcome of one task body of a Scoped Parallel Join: it ran to
completion with a value, or it panicked with some message. -/
inductive BodyOutcome (T : Type) where
  | completed (value : T)
  | panicked (msg : String)
deriving DecidableEq

/-- Modelled from the spec: the Scoped Parallel Join over a fixed list of
task bodies (the macro has no source under src/). Every body's outcome is
consumed — the scope returns only after all bodies ran; if every body
completed, the join yields their values in order, and if any body
panicked, the join itself fails, re-raising the first panic at scope
exit. -/
def joinAll {T : Type} : List (BodyOutcome T) → Except String (List T)
  | [] => Except.ok []
  | .completed v :: rest =>
    match joinAll rest with
    | .ok vs => .ok (v :: vs)
    | .error m => .error m
  | .panicked m :: _ => Except.error m

lemma popReady_none_buffers {T : Type} :
    ∀ cs : List (SelChan T), popReady cs = none → expectedDispatch cs = []
  | [], _ => rfl
  | c :: rest, h => by
    match hb : c.buffer with
    | v :: b => simp [popReady, hb] at h
    | [] =>
      simp only [popReady, hb, Option.map_eq_none'] at h
      simp [expectedDispatch, hb, popReady_none_buffers rest h]

lemma totalBuf_zero_popReady {T : Type} :
    ∀ cs : List (SelChan T), totalBuf cs = 0 → popReady cs = none
  | [], _ => rfl
  | c :: rest, h => by
    have hc : c.buffer.length = 0 ∧ totalBuf rest = 0 := by
      have h' : c.buffer.length + totalBuf rest = 0 := by
        simpa [totalBuf] using h
      omega
    have hb : c.buffer = [] := List.length_eq_zero.mp hc.1
    simp [popReady, hb, totalBuf_zero_popReady rest hc.2]

lemma popReady_some_spec {T : Type} (cs : List (SelChan T)) :
    ∀ (i : Nat) (v : T) (cs' : List (SelChan T)),
      popReady cs = some (i, v, cs') →
        totalBuf cs = totalBuf cs' + 1 ∧
          expectedDispatch cs = (i, v) :: expectedDispatch cs' ∧
          allClosed cs = allClosed cs' := by
  induction cs with
  | nil => intro i v cs' h; simp [popReady] at h
  | cons c rest ih =>
    intro i v cs' h
    cases hb : c.buffer with
    | cons w b =>
      simp only [popReady, hb, Option.some.injEq, Prod.mk.injEq] at h
      obtain ⟨rfl, rfl, rfl⟩ := h
      refine ⟨?_, ?_, ?_⟩
      · simp only [totalBuf, List.map_cons, List.sum_cons, hb,
          List.length_cons]
        omega
      · simp [expectedDispatch, hb]
      · simp [allClosed]
    | nil =>
      simp only [popReady, hb, Option.map_eq_some'] at h
      obtain ⟨⟨i', v', rest'⟩, hrest, heq⟩ := h
      simp only [Prod.mk.injEq] at heq
      obtain ⟨rfl, rfl, rfl⟩ := heq
      obtain ⟨h1, h2, h3⟩ := ih i' v' rest' hrest
      refine ⟨?_, ?_, ?_⟩
      · simp only [totalBuf, List.map_cons, List.sum_cons, hb,
          List.length_nil] at h1 ⊢
        omega
      · simp [expectedDispatch, hb, h2]
      · simp only [allClosed, List.all_cons] at h3 ⊢
        rw [h3]

lemma selectRunFuel_succ {T : Type} (fuel : Nat) (cs : List (SelChan T)) :
    selectRunFuel (fuel + 1) cs =
      match popReady cs with
      | some (i, v, cs') => (selectRunFuel fuel cs').push (i, v)
      | none =>
        if allClosed cs then SelResult.terminated []
        else SelResult.stillBlocked [] := rfl

lemma selectRunFuel_closed {T : Type} :
    ∀ (n : Nat) (cs : List (SelChan T)), totalBuf cs ≤ n →
      allClosed cs = true →
      selectRunFuel (n + 1) cs = SelResult.terminated (expectedDispatch cs) := by
  intro n
  induction n with
  | zero =>
    intro cs hbound hclosed
    have hz : totalBuf cs = 0 := Nat.le_zero.mp hbound
    have hnone := totalBuf_zero_popReady cs hz
    simp [selectRunFuel, hnone, hclosed, popReady_none_buffers cs hnone]
  | succ n ih =>
    intro cs hbound hclosed
    cases hp : popReady cs with
    | none =>
      simp [selectRunFuel, hp, hclosed, popReady_none_buffers cs hp]
    | some p =>
      obtain ⟨i, v, cs'⟩ := p
      obtain ⟨h1, h2, h3⟩ := popReady_some_spec cs i v cs' hp
      have hbound' : totalBuf cs' ≤ n := by omega
      have hclosed' : allClosed cs' = true := h3 ▸ hclosed
      have hrec := ih cs' hbound' hclosed'
      calc selectRunFuel (n + 1 + 1) cs
          = (selectRunFuel (n + 1) cs').push (i, v) := by
            rw [selectRunFuel_succ, hp]
        _ = SelResult.terminated ((i, v) :: expectedDispatch cs') := by
            rw [hrec, SelResult.push]
        _ = SelResult.terminated (expectedDispatch cs) := by rw [h2]

end ErgoSync

namespace ErgoSync

/-- C1: finish on the handle of a thread whose body ran to completion
returning `x` yields exactly `x` (the blocking-until-termination aspect is
embedded by `finish` consuming the thread's terminated outcome). -/
theorem finish_completed_returns_value {T : Type} (x : T) :
    finish (ThreadResult.completed x) = Except.ok x := rfl

/-- C2: finish on the handle of a thread that panicked itself panics in the
calling thread (an `Except.error`), never returning a recoverable `ok`
value, whatever the original panic payload was. -/
theorem finish_panicked_is_fatal {T : Type} (p : String) :
    (∃ m, finish (T := T) (ThreadResult.panicked p) = Except.error m) ∧
      ∀ v : T, finish (ThreadResult.panicked p) ≠ Except.ok v := by
  constructor
  · exact ⟨"finish failed to join, thread is poisoned", rfl⟩
  · intro v h
    simp [finish, join, expect] at h

/-- Witness for C2 at a concrete panicked thread outcome. -/
theorem finish_panicked_is_fatal_witness :
    (∃ m, finish (T := Nat) (ThreadResult.panicked "oops") =
        Except.error m) ∧
      ∀ v : Nat, finish (ThreadResult.panicked "oops") ≠ Except.ok v :=
  finish_panicked_is_fatal "oops"

/-- C10: the panic `finish` raises for a poisoned thread carries the fixed
message `finish failed to join, thread is poisoned`, independent of the
spawned thread's original panic payload, which is discarded rather than
re-raised. -/
theorem finish_panicked_fixed_message {T : Type} (p : String) :
    finish (T := T) (ThreadResult.panicked p) =
      Except.error "finish failed to join, thread is poisoned" := rfl

/-- C9: a completion handle is consumed exactly once: finishing an unspent
handle produces a result together with a spent handle, and a spent handle
admits no second finish. -/
theorem finish_consumes_handle {T : Type} (h : Handle T)
    (hu : h.spent = false) :
    ∃ r h2, h.finishOnce = some (r, h2) ∧ h2.spent = true ∧
      h2.finishOnce = none := by
  refine ⟨finish h.result, { h with spent := true }, ?_, rfl, ?_⟩
  · simp [Handle.finishOnce, hu]
  · simp [Handle.finishOnce]

/-- Witness for C9 at a concrete unspent handle. -/
theorem finish_consumes_handle_witness :
    ∃ r h2,
      Handle.finishOnce ⟨ThreadResult.completed (37 : Nat), false⟩ =
        some (r, h2) ∧ h2.spent = true ∧ h2.finishOnce = none :=
  finish_consumes_handle ⟨ThreadResult.completed 37, false⟩ rfl

lemma chStateAt_nil {T : Type} (c : Channel T) (k : Nat) :
    chStateAt c [] k = c := by
  simp [chStateAt]

lemma chStateAt_zero {T : Type} (c : Channel T) (evs : List (ChEvent T)) :
    chStateAt c evs 0 = c := rfl

lemma chStateAt_cons_succ {T : Type} (c : Channel T) (e : ChEvent T)
    (evs : List (ChEvent T)) (k : Nat) :
    chStateAt c (e :: evs) (k + 1) = chStateAt (chStep c e) evs k := by
  simp [chStateAt]

/-- `waitClose` returns after `k` events exactly when the state after `k`
events is the first one with no live sender. -/
lemma waitClose_char {T : Type} (evs : List (ChEvent T)) (c : Channel T)
    (k : Nat) :
    waitClose c evs = some k ↔
      k ≤ evs.length ∧ (chStateAt c evs k).senders = 0 ∧
        ∀ j < k, (chStateAt c evs j).senders ≠ 0 := by
  induction evs generalizing c k with
  | nil =>
    simp only [waitClose, List.length_nil, chStateAt_nil]
    by_cases hs : c.senders = 0
    · rw [if_pos hs]
      constructor
      · intro h
        have hk : k = 0 := by
          have := Option.some.inj h
          omega
        subst hk
        exact ⟨Nat.le_refl 0, hs, by omega⟩
      · rintro ⟨hk, -, -⟩
        have hk0 : k = 0 := Nat.le_zero.mp hk
        subst hk0
        rfl
    · rw [if_neg hs]
      constructor
      · intro h
        exact absurd h (by simp)
      · rintro ⟨hk, hsend, -⟩
        exact absurd hsend hs
  | cons e rest ih =>
    simp only [waitClose]
    by_cases hs : c.senders = 0
    · rw [if_pos hs]
      constructor
      · intro h
        have hk : k = 0 := by
          have := Option.some.inj h
          omega
        subst hk
        exact ⟨Nat.zero_le _, by rwa [chStateAt_zero], by omega⟩
      · rintro ⟨-, -, hall⟩
        rcases Nat.eq_zero_or_pos k with hk0 | hkpos
        · subst hk0; rfl
        · exact absurd hs (by simpa [chStateAt_zero] using hall 0 hkpos)
    · rw [if_neg hs]
      cases k with
      | zero =>
        constructor
        · intro h
          rcases Option.map_eq_some'.mp h with ⟨a, -, ha⟩
          omega
        · rintro ⟨-, hsend, -⟩
          exact absurd (by rwa [chStateAt_zero] at hsend) hs
      | succ k' =>
        rw [Option.map_eq_some']
        constructor
        · rintro ⟨a, ha, hak⟩
          obtain rfl : k' = a := by omega
          rcases (ih _ _).mp ha with ⟨hk, hsend, hall⟩
          refine ⟨by simpa using Nat.succ_le_succ hk,
            by rwa [chStateAt_cons_succ], ?_⟩
          intro j hj
          cases j with
          | zero => simpa [chStateAt_zero] using hs
          | succ j' =>
            rw [chStateAt_cons_succ]
            exact hall j' (by omega)
        · rintro ⟨hk, hsend, hall⟩
          refine ⟨k', (ih (chStep c e) k').mpr ⟨by simpa using hk,
            by rwa [chStateAt_cons_succ] at hsend, ?_⟩, rfl⟩
          intro j hj
          have := hall (j + 1) (by omega)
          rwa [chStateAt_cons_succ] at this

/-- `waitClose` is determined by the sender count alone: the receiver count
and the buffered-but-unread values never influence when it returns. -/
lemma waitClose_senders_only {T : Type} (evs : List (ChEvent T))
    (s r r' : Nat) (b b' : List T) :
    waitClose ⟨s, r, b⟩ evs = waitClose ⟨s, r', b'⟩ evs := by
  induction evs generalizing s r r' b b' with
  | nil => simp [waitClose]
  | cons e rest ih =>
    by_cases hs : s = 0
    · simp [waitClose, hs]
    · cases e with
      | send v =>
        simp only [waitClose, chStep, if_neg hs]
        exact congrArg _ (ih s r r' (b ++ [v]) (b' ++ [v]))
      | recvOne =>
        simp only [waitClose, chStep, if_neg hs]
        exact congrArg _ (ih s r r' b.tail b'.tail)
      | cloneSender =>
        simp only [waitClose, chStep, if_neg hs]
        exact congrArg _ (ih (s + 1) r r' b b')
      | dropSender =>
        simp only [waitClose, chStep, if_neg hs]
        exact congrArg _ (ih (s - 1) r r' b b')
      | cloneReceiver =>
        simp only [waitClose, chStep, if_neg hs]
        exact congrArg _ (ih s (r + 1) (r' + 1) b b')
      | dropReceiver =>
        simp only [waitClose, chStep, if_neg hs]
        exact congrArg _ (ih s (r - 1) (r' - 1) b b')

/-- C3: the Send form delivers the value (appended to the FIFO buffer) when
at least one Receiver remains, and fails fatally with the descriptive
broken-pipe-send message when every Receiver has been dropped. -/
theorem ch_send_spec {T : Type} (c : Channel T) (v : T) :
    (c.receivers = 0 → chSend c v = Except.error sendBrokenPipeMsg) ∧
      (c.receivers ≠ 0 →
        chSend c v = Except.ok { c with buffer := c.buffer ++ [v] }) := by
  constructor <;> intro h <;> simp [chSend, h]

/-- Witness for C3: a concrete broken-pipe send fails with the message and
a concrete live send delivers the value. -/
theorem ch_send_spec_witness :
    chSend (⟨1, 0, []⟩ : Channel Nat) 42 = Except.error sendBrokenPipeMsg ∧
      chSend (⟨1, 1, [7]⟩ : Channel Nat) 42 = Except.ok ⟨1, 1, [7, 42]⟩ :=
  ⟨(ch_send_spec ⟨1, 0, []⟩ 42).1 rfl,
    (ch_send_spec ⟨1, 1, [7]⟩ 42).2 (by decide)⟩

/-- C4: the Receive form returns the first buffered value when one is
available, fails fatally with the descriptive broken-pipe-receive message
when the channel is closed (no sender) with nothing buffered, and keeps
blocking when nothing is buffered but a sender remains. -/
theorem ch_recv_spec {T : Type} (c : Channel T) :
    (∀ v rest, c.buffer = v :: rest →
        chRecv c = RecvOutcome.received v { c with buffer := rest }) ∧
      (c.buffer = [] → c.senders = 0 →
        chRecv c = RecvOutcome.fatal recvBrokenPipeMsg) ∧
      (c.buffer = [] → c.senders ≠ 0 → chRecv c = RecvOutcome.blocks) := by
  refine ⟨?_, ?_, ?_⟩
  · intro v rest hb
    simp [chRecv, hb]
  · intro hb hs
    simp [chRecv, hb, hs]
  · intro hb hs
    simp [chRecv, hb, hs]

/-- Witness for C4 at concrete channels for all three cases. -/
theorem ch_recv_spec_witness :
    chRecv (⟨0, 1, [3, 4]⟩ : Channel Nat) =
        RecvOutcome.received 3 ⟨0, 1, [4]⟩ ∧
      chRecv (⟨0, 1, []⟩ : Channel Nat) =
        RecvOutcome.fatal recvBrokenPipeMsg ∧
      chRecv (⟨2, 1, []⟩ : Channel Nat) = RecvOutcome.blocks :=
  ⟨(ch_recv_spec ⟨0, 1, [3, 4]⟩).1 3 [4] rfl,
    (ch_recv_spec ⟨0, 1, []⟩).2.1 rfl rfl,
    (ch_recv_spec ⟨2, 1, []⟩).2.2 rfl (by decide)⟩

/-- C6: WaitClose returns exactly at the first moment the last Sender clone
has been dropped (sender count reaches zero), and the receiver count and
any buffered-but-unread values are irrelevant to when it returns — the
interim values are discarded. -/
theorem wait_close_spec {T : Type} (c : Channel T)
    (evs : List (ChEvent T)) (k : Nat) :
    (waitClose c evs = some k ↔
        k ≤ evs.length ∧ (chStateAt c evs k).senders = 0 ∧
          ∀ j < k, (chStateAt c evs j).senders ≠ 0) ∧
      ∀ (r' : Nat) (b' : List T),
        waitClose c evs = waitClose ⟨c.senders, r', b'⟩ evs :=
  ⟨waitClose_char evs c k,
    fun r' b' => waitClose_senders_only evs c.senders c.receivers r' c.buffer b'⟩

/-- Witness for C6: on a channel with one sender and a buffered value,
WaitClose returns right after the event dropping the last sender, the
buffered value notwithstanding. -/
theorem wait_close_spec_witness :
    waitClose (⟨1, 1, [5]⟩ : Channel Nat)
      [ChEvent.send 7, ChEvent.dropSender] = some 2 :=
  ((wait_close_spec (⟨1, 1, [5]⟩ : Channel Nat)
      [ChEvent.send 7, ChEvent.dropSender] 2).1).mpr (by decide)

/-- C7: when every declared channel is closed, the Multi-Channel Select
Loop terminates (it never blocks) after dispatching every buffered item to
its paired handler exactly once — in particular, an iteration observing
zero ready channels and zero open channels terminates. -/
theorem select_loop_drains_and_terminates {T : Type} (cs : List (SelChan T))
    (h : allClosed cs = true) :
    selectRun cs = SelResult.terminated (expectedDispatch cs) :=
  selectRunFuel_closed (totalBuf cs) cs (Nat.le_refl _) h

/-- Witness for C7 at the spec's scenario: channel 0 closed and drained,
channel 1 closed holding one buffered item — the loop dispatches that item
exactly once and terminates. -/
theorem select_loop_drains_witness :
    selectRun [(⟨true, []⟩ : SelChan Nat), ⟨true, [9]⟩] =
      SelResult.terminated [(1, 9)] :=
  (select_loop_drains_and_terminates [⟨true, []⟩, ⟨true, [9]⟩]
      (by decide)).trans (by decide)

lemma joinAll_map_completed {T : Type} (vs : List T) :
    joinAll (List.map BodyOutcome.completed vs) = Except.ok vs := by
  induction vs with
  | nil => rfl
  | cons v t ih => simp [joinAll, ih]

lemma joinAll_ok_shape {T : Type} :
    ∀ (bodies : List (BodyOutcome T)) (vs : List T),
      joinAll bodies = Except.ok vs →
        bodies = List.map BodyOutcome.completed vs := by
  intro bodies
  induction bodies with
  | nil =>
    intro vs h
    simp only [joinAll, Except.ok.injEq] at h
    simp [← h]
  | cons b rest ih =>
    intro vs h
    cases b with
    | panicked m => simp [joinAll] at h
    | completed v =>
      cases hr : joinAll rest with
      | ok vs' =>
        simp only [joinAll, hr, Except.ok.injEq] at h
        subst h
        simp [ih vs' hr]
      | error m =>
        simp [joinAll, hr] at h

lemma joinAll_error_iff {T : Type} :
    ∀ bodies : List (BodyOutcome T),
      (∃ m, joinAll bodies = Except.error m) ↔
        ∃ m, BodyOutcome.panicked m ∈ bodies := by
  intro bodies
  induction bodies with
  | nil => simp [joinAll]
  | cons b rest ih =>
    cases b with
    | completed v =>
      cases hr : joinAll rest with
      | ok vs' =>
        simp only [joinAll, hr]
        constructor
        · rintro ⟨m, hm⟩
          exact absurd hm (by simp)
        · rintro ⟨m, hm⟩
          rcases List.mem_cons.mp hm with hmc | hmr
          · exact absurd hmc (by simp)
          · rcases ih.mpr ⟨m, hmr⟩ with ⟨m', hm'⟩
            rw [hr] at hm'
            exact absurd hm' (by simp)
      | error m0 =>
        simp only [joinAll, hr]
        constructor
        · rintro ⟨m, -⟩
          rcases ih.mp ⟨m0, hr⟩ with ⟨m', hm'⟩
          exact ⟨m', List.mem_cons_of_mem _ hm'⟩
        · intro hmem
          exact ⟨m0, rfl⟩
    | panicked m =>
      refine ⟨fun h2 => ⟨m, List.mem_cons_self _ _⟩, fun h2 => ⟨m, ?_⟩⟩
      simp [joinAll]

/-- C5: the Scoped Parallel Join over a fixed list of task bodies yields
the values of all bodies, in order, exactly when every body ran to
completion, and the join itself fails exactly when some body panicked (the
other bodies' outcomes being consumed all the same). -/
theorem scoped_join_spec {T : Type} (bodies : List (BodyOutcome T)) :
    (∀ vs : List T, joinAll bodies = Except.ok vs ↔
        bodies = List.map BodyOutcome.completed vs) ∧
      ((∃ m, joinAll bodies = Except.error m) ↔
        ∃ m, BodyOutcome.panicked m ∈ bodies) := by
  refine ⟨fun vs => ⟨joinAll_ok_shape bodies vs, fun hb => ?_⟩,
    joinAll_error_iff bodies⟩
  rw [hb]
  exact joinAll_map_completed vs

/-- Witness for C5: two completed bodies join to their two values; a list
with one panicked body makes the join fail. -/
theorem scoped_join_spec_witness :
    joinAll [BodyOutcome.completed (1 : Nat), BodyOutcome.completed 2] =
        Except.ok [1, 2] ∧
      ∃ m, joinAll [BodyOutcome.completed (1 : Nat),
        BodyOutcome.panicked "boom"] = Except.error m :=
  ⟨((scoped_join_spec [BodyOutcome.completed 1,
        BodyOutcome.completed 2]).1 [1, 2]).mpr (by simp),
    (scoped_join_spec [BodyOutcome.completed 1,
        BodyOutcome.panicked "boom"]).2.mpr ⟨"boom", by simp⟩⟩

/-- C8: `sleep_ms millis` is a direct pass-through: its effect trace is
identical to that of `sleep (Duration.fromMillis millis)` — the single
park-for-duration effect — and it has no other effect. -/
theorem sleep_ms_passthrough (millis : Nat) :
    sleep_ms millis = sleepMsSpec millis ∧
      sleep_ms millis = sleep (Duration.fromMillis millis) ∧
      sleep_ms millis = [Effect.sleepFor (Duration.fromMillis millis)] :=
  ⟨rfl, rfl, rfl⟩

end ErgoSync
